import Mathlib

/-!
# Anchor-Draggers: territorial attribution and trajectory-retention engine

Shallow embedding of the core of the repository:

* `src/territory.py` — `find_territorial_country` (the lazily-loaded boundary
  classifier used at ingestion time);
* `src/cleanup_all_history.py` (second script in the file) —
  `load_territorial_waters`, `get_vessel_country`, `analyze_all_history`,
  `delete_vessels_completely` and the confirmation-gated `main` of the
  one-time retention pass.

The external geometry engine (shapely) is modelled by oracle functions
attached to each boundary: `contains`, `distance`, `intersects` return
`Option` results where `none` stands for a raised exception from the engine.
Numeric coordinates and distances are modelled as rationals; the Python float
literal `0.2` is modelled as the rational `2/10` (distances are abstract
oracle outputs, so only the strict comparison against the threshold matters).
A Python exception escaping a function is modelled by `Except Unit`.
-/

/-- A geographic point `(lon, lat)`, as fed to the geometry engine. -/
abbrev GeoPoint := ℚ × ℚ

/-- GeoJSON geometry types distinguished by the code.  The loader in
`cleanup_all_history.py` keeps exactly the four listed kinds; anything else is
`other` and is skipped at load time. -/
inductive GeomType where
  | polygon
  | multiPolygon
  | lineString
  | multiLineString
  | other
deriving DecidableEq, Repr

/-- A boundary as stored by `load_territorial_waters` in
`cleanup_all_history.py`: a `country` label, the geometry `type` string, and
the shapely geometry, modelled by its `contains` and `distance` behaviour on
points (`none` = the engine raised an exception on that call). -/
structure Boundary where
  country : String
  gType : GeomType
  containsB : GeoPoint → Option Bool
  distanceB : GeoPoint → Option ℚ

/-- A feature as stored by `_load_geojson` in `territory.py`: the resolved
ISO2 code (which may be `None`), and the prepared geometry's `contains` and
the raw geometry's `intersects` behaviour (`none` = exception). -/
structure TerrFeature where
  iso2 : Option String
  containsP : GeoPoint → Option Bool
  intersectsP : GeoPoint → Option Bool

/-- A raw GeoJSON feature as seen by `load_territorial_waters`: geometry type,
geometry behaviour, and the three `properties` fields consulted for the
country label (`none` = key absent). -/
structure Feature where
  geomType : GeomType
  containsF : GeoPoint → Option Bool
  distanceF : GeoPoint → Option ℚ
  territory1 : Option String
  countryProp : Option String
  nameProp : Option String

/-- One row of the `vessel_positions` projection fetched by the retention
pass: `mmsi, longitude, latitude`. -/
structure Position where
  mmsi : ℕ
  longitude : ℚ
  latitude : ℚ
deriving DecidableEq, Repr

/-- Python truthiness-based `or` on an optional string: `a or d` where the
empty string and a missing key are both falsy. -/
def pyOr : Option String → String → String
  | some s, d => if s = "" then d else s
  | none, d => d

/-- `feature['properties'].get('TERRITORY1') or ... or 'Unknown'` — the
country label computed by `load_territorial_waters`. -/
def featureCountry (f : Feature) : String :=
  pyOr f.territory1 (pyOr f.countryProp (pyOr f.nameProp "Unknown"))

/-- The loader keeps exactly Polygon / MultiPolygon / LineString /
MultiLineString features. -/
def isHandledType : GeomType → Bool
  | GeomType.polygon => true
  | GeomType.multiPolygon => true
  | GeomType.lineString => true
  | GeomType.multiLineString => true
  | GeomType.other => false

/-- `load_territorial_waters` (cleanup_all_history.py, lines 93–120): keep the
four handled geometry types in file order, attaching the resolved country
label (never null: the final fallback is the string `"Unknown"`). -/
def load_territorial_waters (feats : List Feature) : List Boundary :=
  feats.filterMap fun f =>
    if isHandledType f.geomType then
      some ⟨featureCountry f, f.geomType, f.containsF, f.distanceF⟩
    else none

/-- `PROXIMITY_THRESHOLD = 0.2` (degrees), modelled exactly as `2/10`. -/
def PROXIMITY_THRESHOLD : ℚ := 2 / 10

/-- `get_vessel_country` (cleanup_all_history.py, lines 122–139): walk the
boundaries in order; an area boundary matches when `contains` holds, a line
boundary when the distance is strictly below `PROXIMITY_THRESHOLD`; return the
first match's country, `none` if no boundary matches.  The function has no
exception handling, so an engine exception (`none` from the oracle)
propagates: the result is `.error ()`. -/
def get_vessel_country (lon lat : ℚ) : List Boundary → Except Unit (Option String)
  | [] => Except.ok none
  | b :: rest =>
    match b.gType with
    | GeomType.polygon | GeomType.multiPolygon =>
      match b.containsB (lon, lat) with
      | none => Except.error ()
      | some true => Except.ok (some b.country)
      | some false => get_vessel_country lon lat rest
    | GeomType.lineString | GeomType.multiLineString =>
      match b.distanceB (lon, lat) with
      | none => Except.error ()
      | some d =>
        if d < PROXIMITY_THRESHOLD then Except.ok (some b.country)
        else get_vessel_country lon lat rest
    | GeomType.other => get_vessel_country lon lat rest

/-- `find_territorial_country` (territory.py, lines 105–137): walk the loaded
features in order; test `prepared.contains(pt)` first — on an exception fall
back to `poly.intersects(pt)`, and if that also fails (raises or is false)
move on to the next feature.  A match returns the feature's `iso2`, which may
itself be `None`; exhaustion returns `None`.  There is no proximity test and
no uncaught-exception path. -/
def find_territorial_country (lon lat : ℚ) : List TerrFeature → Option String
  | [] => none
  | f :: rest =>
    match f.containsP (lon, lat) with
    | some true => f.iso2
    | some false => find_territorial_country lon lat rest
    | none =>
      match f.intersectsP (lon, lat) with
      | some true => f.iso2
      | some false => find_territorial_country lon lat rest
      | none => find_territorial_country lon lat rest

/-- The per-boundary match test applied by `get_vessel_country` to one
boundary, with `none` standing for an engine exception. -/
def boundaryTest (b : Boundary) (lon lat : ℚ) : Option Bool :=
  match b.gType with
  | GeomType.polygon | GeomType.multiPolygon => b.containsB (lon, lat)
  | GeomType.lineString | GeomType.multiLineString =>
    (b.distanceB (lon, lat)).map (fun d => decide (d < PROXIMITY_THRESHOLD))
  | GeomType.other => some false

/-- The inner loop of `analyze_all_history` accumulating `countries_visited`
for one vessel (cleanup_all_history.py, lines 196–200): classify each
position and add the result to the set when it is truthy (`if country:`
excludes both `None` and the empty string).  An uncaught engine exception in
`get_vessel_country` propagates (there is no `try` around this loop). -/
def countriesVisitedGo (b : List Boundary) :
    List Position → Finset String → Except Unit (Finset String)
  | [], acc => Except.ok acc
  | p :: rest, acc =>
    match get_vessel_country p.longitude p.latitude b with
    | Except.error e => Except.error e
    | Except.ok none => countriesVisitedGo b rest acc
    | Except.ok (some c) =>
      countriesVisitedGo b rest (if c = "" then acc else insert c acc)

/-- `countries_visited` for one vessel's position list, starting from the
empty set. -/
def countries_visited (b : List Boundary) (ps : List Position) :
    Except Unit (Finset String) :=
  countriesVisitedGo b ps ∅

/-- Append a key to the running key list unless already present — the effect
of `if mmsi not in vessels: vessels[mmsi] = []` on the dict's key order. -/
def insertKey (ks : List ℕ) (m : ℕ) : List ℕ :=
  if m ∈ ks then ks else ks ++ [m]

/-- The keys of the `vessels` dict built by `analyze_all_history`
(lines 178–183): distinct mmsi values in first-appearance order. -/
def groupKeys (ps : List Position) : List ℕ :=
  ps.foldl (fun ks p => insertKey ks p.mmsi) []

/-- The `vessels` dict value for key `m`: the positions with that mmsi, in
fetch order. -/
def vesselPositions (ps : List Position) (m : ℕ) : List Position :=
  ps.filter fun p => p.mmsi = m

/-- The main loop of `analyze_all_history` (lines 191–206): for each vessel
in dict order compute `countries_visited` and put the vessel in
`vessels_to_keep` when the set has at least two elements, otherwise in
`vessels_to_delete`. -/
def classifyLoop (b : List Boundary) (ps : List Position) :
    List ℕ → Finset ℕ × Finset ℕ → Except Unit (Finset ℕ × Finset ℕ)
  | [], acc => Except.ok acc
  | m :: rest, acc =>
    match countries_visited b (vesselPositions ps m) with
    | Except.error e => Except.error e
    | Except.ok cs =>
      classifyLoop b ps rest
        (if 2 ≤ cs.card then (insert m acc.1, acc.2) else (acc.1, insert m acc.2))

/-- The grouping-and-classification phase of `analyze_all_history` applied to
the fetched position list: returns `(vessels_to_keep, vessels_to_delete)`, or
propagates an uncaught geometry-engine exception. -/
def classify_vessels (b : List Boundary) (ps : List Position) :
    Except Unit (Finset ℕ × Finset ℕ) :=
  classifyLoop b ps (groupKeys ps) (∅, ∅)

/-- The pagination `while True` loop of `analyze_all_history`
(lines 152–168), fuel-indexed because the Python loop is unbounded.  `fetch
offset` models `.range(offset, offset + page_size - 1).execute().data`, with
`.error` for a raised fetch exception.  `none` means the fuel ran out before
the loop decided — the loop did not terminate within `fuel` iterations. -/
def fetchLoopE (fetch : ℕ → Except Unit (List Position)) (pageSize : ℕ) :
    ℕ → ℕ → List Position → Option (Except Unit (List Position))
  | 0, _, _ => none
  | fuel + 1, offset, acc =>
    match fetch offset with
    | Except.error e => some (Except.error e)
    | Except.ok batch =>
      if batch.isEmpty then some (Except.ok acc)
      else if batch.length < pageSize then some (Except.ok (acc ++ batch))
      else fetchLoopE fetch pageSize fuel (offset + pageSize) (acc ++ batch)

/-- The page served at `offset` by a store holding `rows`, when every page
request succeeds: `rows[offset : offset + pageSize]`. -/
def pureFetch (rows : List Position) (pageSize : ℕ) (offset : ℕ) :
    Except Unit (List Position) :=
  Except.ok ((rows.drop offset).take pageSize)

/-- `analyze_all_history` (lines 141–212): run the paginated fetch with page
size 1000; a fetch exception is caught by the `except` clause, which logs and
returns `(set(), set())`; otherwise group and classify the fetched positions
(outside the `try`, so classification exceptions propagate). -/
def analyze_all_history (fetch : ℕ → Except Unit (List Position))
    (b : List Boundary) (fuel : ℕ) :
    Option (Except Unit (Finset ℕ × Finset ℕ)) :=
  match fetchLoopE fetch 1000 fuel 0 [] with
  | none => none
  | some (Except.error _) => some (Except.ok (∅, ∅))
  | some (Except.ok positions) => some (classify_vessels b positions)

/-- `delete_vessels_completely` (lines 214–240), modelled as the list of
delete-request batches issued: nothing for an empty set, otherwise the
`range(0, len, 100)` slices `mmsi_list[i : i + 100]`. -/
def delete_vessels_completely (mmsi_list : List ℕ) : List (List ℕ) :=
  if mmsi_list = [] then []
  else (List.range ((mmsi_list.length + 99) / 100)).map
    fun j => (mmsi_list.drop (j * 100)).take 100

/-- `response.lower()`: per-character lowercasing of the interactive reply
(the model of Python `str.lower`, which agrees with it on the ASCII replies
the prompt compares against). -/
def strLower (s : String) : String := String.mk (s.data.map Char.toLower)

/-- `len(vessels_to_delete)/len(vessels_to_keep)*100` (line 261): Python
raises `ZeroDivisionError` when `vessels_to_keep` is empty, modelled as
`none`. -/
def spacePct (d k : ℕ) : Option ℚ :=
  if k = 0 then none else some ((d : ℚ) / (k : ℚ) * 100)

/-- The confirmation-and-deletion tail of `main` (lines 258–273), given the
analysis result and the interactive response: if `vessels_to_delete` is
empty, print and do nothing; otherwise compute the space percentage (which
raises — `none` — when `vessels_to_keep` is empty), prompt, and issue the
delete batches only when the lowercased response equals `"yes"`.  The result
is the list of delete batches issued, or `none` for a crash.  Python's
`list(mmsi_set)` enumerates the set in an unspecified order; the model
enumerates it sorted, which agrees on membership and emptiness. -/
def main_run (keep del : Finset ℕ) (resp : String) : Option (List (List ℕ)) :=
  if del = ∅ then some []
  else
    match spacePct del.card keep.card with
    | none => none
    | some _ =>
      if strLower resp = "yes" then
        some (delete_vessels_completely (del.sort (· ≤ ·)))
      else some []

/-- The vessel `m` satisfies the retention condition: its accumulated
jurisdiction set is computed without an exception and has at least two
elements. -/
def keepCond (b : List Boundary) (ps : List Position) (m : ℕ) : Prop :=
  ∃ cs, countries_visited b (vesselPositions ps m) = Except.ok cs ∧ 2 ≤ cs.card

/-- The vessel `m` satisfies the deletion condition: its accumulated
jurisdiction set is computed without an exception and has fewer than two
elements. -/
def delCond (b : List Boundary) (ps : List Position) (m : ℕ) : Prop :=
  ∃ cs, countries_visited b (vesselPositions ps m) = Except.ok cs ∧ cs.card < 2

/-- The pagination loop specialised to a store that serves every page
successfully from `rows`: the loop state is the remaining suffix of the store
and the accumulator. -/
def fetchPure (pageSize : ℕ) : ℕ → List Position → List Position → Option (List Position)
  | 0, _, _ => none
  | fuel + 1, rem, acc =>
    if (rem.take pageSize).isEmpty then some acc
    else if (rem.take pageSize).length < pageSize then
      some (acc ++ rem.take pageSize)
    else fetchPure pageSize fuel (rem.drop pageSize) (acc ++ rem.take pageSize)

/-- A Python-falsy optional string: the key is absent or maps to `""`. -/
def pyFalsy (o : Option String) : Prop := o = none ∨ o = some ""

/-- A line boundary (cleanup loader shape) near the query point: the engine
reports distance `1/10 < 2/10` and, as for any point strictly off the line,
`contains` is false. -/
def lineBoundaryNear : Boundary :=
  ⟨"SE", GeomType.lineString, fun _ => some false, fun _ => some (1 / 10)⟩

/-- The same geometric situation as seen by `territory.py`: for a point at
positive distance from a line, shapely's `contains` and `intersects` are both
false (no exception). -/
def lineTerrNear : TerrFeature :=
  ⟨some "SE", fun _ => some false, fun _ => some false⟩

/-- A malformed polygon boundary: the engine raises on every test. -/
def badPolyBoundary : Boundary := ⟨"FI", GeomType.polygon, fun _ => none, fun _ => none⟩

/-- A well-formed polygon boundary containing the query point. -/
def okPolyBoundary : Boundary := ⟨"EE", GeomType.polygon, fun _ => some true, fun _ => some 0⟩

/-- A `territory.py` feature whose code resolution failed (`iso2 = None`) but
whose geometry contains the query point. -/
def unresolvedTerr : TerrFeature := ⟨none, fun _ => some true, fun _ => some true⟩

/-- Two overlapping polygons labelled `"A"` then `"B"` in file order: both
contain the query point. -/
def overlapPolyA : Boundary := ⟨"A", GeomType.polygon, fun _ => some true, fun _ => none⟩

/-- Second overlapping polygon, labelled `"B"`. -/
def overlapPolyB : Boundary := ⟨"B", GeomType.polygon, fun _ => some true, fun _ => none⟩

/-- A polygon boundary for jurisdiction `"A"` covering longitude `0`. -/
def polyAtZero : Boundary :=
  ⟨"A", GeomType.polygon, fun p => some (p.1 = 0), fun _ => none⟩

/-- A polygon boundary for jurisdiction `"B"` covering longitude `1`. -/
def polyAtOne : Boundary :=
  ⟨"B", GeomType.polygon, fun p => some (p.1 = 1), fun _ => none⟩

/-- A two-jurisdiction boundary file: `"A"` at longitude `0`, `"B"` at
longitude `1`. -/
def twoJurisdictions : List Boundary := [polyAtZero, polyAtOne]

/-- A history with vessel `1` visiting both jurisdictions and vessel `2`
staying in `"A"`. -/
def crossingHistory : List Position := [⟨1, 0, 0⟩, ⟨2, 0, 0⟩, ⟨1, 1, 1⟩]

/-- A two-row store used to exercise the final-page-exactly-`pageSize`
pagination scenario. -/
def twoRows : List Position := [⟨1, 0, 0⟩, ⟨2, 0, 0⟩]

/-- A GeoJSON feature with a polygon containing the query point and all three
country-name properties falsy, so that code resolution falls through to
`"Unknown"`. -/
def unresolvedFeature : Feature :=
  ⟨GeomType.polygon, fun _ => some true, fun _ => none, none, some "", none⟩

/-- Membership in `insertKey`: the appended key list holds exactly the old
keys and the new key. -/
theorem mem_insertKey (ks : List ℕ) (x m : ℕ) :
    m ∈ insertKey ks x ↔ m ∈ ks ∨ m = x := by
  unfold insertKey
  split
  · rename_i h
    constructor
    · exact Or.inl
    · rintro (h1 | rfl)
      · exact h1
      · exact h
  · simp [List.mem_append]

/-- Fold form of `groupKeys` membership, generalised over the seed list. -/
theorem mem_groupKeys_aux (ps : List Position) :
    ∀ (ks : List ℕ) (m : ℕ),
      m ∈ ps.foldl (fun ks p => insertKey ks p.mmsi) ks ↔
        m ∈ ks ∨ ∃ p ∈ ps, p.mmsi = m := by
  induction ps with
  | nil => simp
  | cons p rest ih =>
    intro ks m
    simp only [List.foldl_cons, ih, mem_insertKey, List.mem_cons]
    constructor
    · rintro ((h1 | rfl) | ⟨q, hq, rfl⟩)
      · exact Or.inl h1
      · exact Or.inr ⟨p, Or.inl rfl, rfl⟩
      · exact Or.inr ⟨q, Or.inr hq, rfl⟩
    · rintro (h1 | ⟨q, (rfl | hq), rfl⟩)
      · exact Or.inl (Or.inl h1)
      · exact Or.inl (Or.inr rfl)
      · exact Or.inr ⟨q, hq, rfl⟩

/-- The `vessels` dict has a key `m` exactly when some fetched position has
mmsi `m`. -/
theorem mem_groupKeys (ps : List Position) (m : ℕ) :
    m ∈ groupKeys ps ↔ ∃ p ∈ ps, p.mmsi = m := by
  unfold groupKeys
  rw [mem_groupKeys_aux]
  simp

/-- A vessel cannot satisfy both the retention and the deletion condition:
`countries_visited` is a function of the history. -/
theorem keepCond_not_delCond {b : List Boundary} {ps : List Position} {m : ℕ}
    (h1 : keepCond b ps m) (h2 : delCond b ps m) : False := by
  obtain ⟨cs, hcs, hc⟩ := h1
  obtain ⟨cs2, hcs2, hc2⟩ := h2
  rw [hcs] at hcs2
  injection hcs2 with h3
  subst h3
  omega

/-- If the classification loop finishes without an exception, every processed
vessel's `countries_visited` was computed without an exception. -/
theorem classifyLoop_ok_of_mem (b : List Boundary) (ps : List Position) :
    ∀ (ks : List ℕ) (acc r : Finset ℕ × Finset ℕ),
      classifyLoop b ps ks acc = Except.ok r →
      ∀ m ∈ ks, ∃ cs, countries_visited b (vesselPositions ps m) = Except.ok cs := by
  intro ks
  induction ks with
  | nil => intro _ _ _ m hm; simp at hm
  | cons k rest ih =>
    intro acc r h m hm
    rw [classifyLoop] at h
    cases hcv : countries_visited b (vesselPositions ps k) with
    | error e => rw [hcv] at h; simp at h
    | ok cs =>
      rw [hcv] at h
      simp only at h
      rcases List.mem_cons.mp hm with rfl | hm2
      · exact ⟨cs, hcv⟩
      · exact ih _ r h m hm2

/-- Loop invariant of the classification loop: a vessel ends up in the kept
(resp. deleted) accumulator exactly when it started there or it is a
processed key satisfying the retention (resp. deletion) condition. -/
theorem classifyLoop_mem (b : List Boundary) (ps : List Position) :
    ∀ (ks : List ℕ) (acc : Finset ℕ × Finset ℕ) (keep del : Finset ℕ),
      classifyLoop b ps ks acc = Except.ok (keep, del) →
      ∀ m : ℕ,
        (m ∈ keep ↔ m ∈ acc.1 ∨ (m ∈ ks ∧ keepCond b ps m)) ∧
        (m ∈ del ↔ m ∈ acc.2 ∨ (m ∈ ks ∧ delCond b ps m)) := by
  intro ks
  induction ks with
  | nil =>
    intro acc keep del h m
    rw [classifyLoop] at h
    injection h with h2
    subst h2
    simp
  | cons k rest ih =>
    intro acc keep del h m
    rw [classifyLoop] at h
    cases hcv : countries_visited b (vesselPositions ps k) with
    | error e => rw [hcv] at h; simp at h
    | ok cs =>
      rw [hcv] at h
      simp only at h
      by_cases hc : 2 ≤ cs.card
      · rw [if_pos hc] at h
        obtain ⟨ihk, ihd⟩ := ih _ keep del h m
        have hkc : keepCond b ps k := ⟨cs, hcv, hc⟩
        constructor
        · rw [ihk]
          simp only [Finset.mem_insert, List.mem_cons]
          constructor
          · rintro ((rfl | hma) | ⟨hmr, hkm⟩)
            · exact Or.inr ⟨Or.inl rfl, hkc⟩
            · exact Or.inl hma
            · exact Or.inr ⟨Or.inr hmr, hkm⟩
          · rintro (hma | ⟨rfl | hmr, hkm⟩)
            · exact Or.inl (Or.inr hma)
            · exact Or.inl (Or.inl rfl)
            · exact Or.inr ⟨hmr, hkm⟩
        · rw [ihd]
          simp only [List.mem_cons]
          constructor
          · rintro (hma | ⟨hmr, hdm⟩)
            · exact Or.inl hma
            · exact Or.inr ⟨Or.inr hmr, hdm⟩
          · rintro (hma | ⟨rfl | hmr, hdm⟩)
            · exact Or.inl hma
            · exact (keepCond_not_delCond hkc hdm).elim
            · exact Or.inr ⟨hmr, hdm⟩
      · rw [if_neg hc] at h
        obtain ⟨ihk, ihd⟩ := ih _ keep del h m
        have hdc : delCond b ps k := ⟨cs, hcv, by omega⟩
        constructor
        · rw [ihk]
          simp only [List.mem_cons]
          constructor
          · rintro (hma | ⟨hmr, hkm⟩)
            · exact Or.inl hma
            · exact Or.inr ⟨Or.inr hmr, hkm⟩
          · rintro (hma | ⟨rfl | hmr, hkm⟩)
            · exact Or.inl hma
            · exact (keepCond_not_delCond hkm hdc).elim
            · exact Or.inr ⟨hmr, hkm⟩
        · rw [ihd]
          simp only [Finset.mem_insert, List.mem_cons]
          constructor
          · rintro ((rfl | hma) | ⟨hmr, hdm⟩)
            · exact Or.inr ⟨Or.inl rfl, hdc⟩
            · exact Or.inl hma
            · exact Or.inr ⟨Or.inr hmr, hdm⟩
          · rintro (hma | ⟨rfl | hmr, hdm⟩)
            · exact Or.inl (Or.inr hma)
            · exact Or.inl (Or.inl rfl)
            · exact Or.inr ⟨hmr, hdm⟩

/-- Claim C1: for every vessel in the input history, `analyze_all_history`
places the vessel in `vessels_to_keep` exactly when the set of distinct
non-null jurisdiction codes accumulated over all of that vessel's positions
(`countries_visited`) has size at least 2, and in `vessels_to_delete`
otherwise (0 or 1 distinct jurisdictions across the entire history). -/
theorem analyze_keep_iff_multi_jurisdiction
    (b : List Boundary) (ps : List Position) (keep del : Finset ℕ) (m : ℕ)
    (cs : Finset String)
    (h : classify_vessels b ps = Except.ok (keep, del))
    (hm : ∃ p ∈ ps, p.mmsi = m)
    (hcs : countries_visited b (vesselPositions ps m) = Except.ok cs) :
    (m ∈ keep ↔ 2 ≤ cs.card) ∧ (m ∈ del ↔ cs.card < 2) := by
  obtain ⟨hik, hid⟩ := classifyLoop_mem b ps (groupKeys ps) (∅, ∅) keep del h m
  have hk : m ∈ groupKeys ps := (mem_groupKeys ps m).mpr hm
  constructor
  · rw [hik]
    simp only [Finset.not_mem_empty, false_or]
    constructor
    · rintro ⟨-, cs2, hcs2, hc⟩
      rw [hcs] at hcs2
      injection hcs2 with h3
      subst h3
      exact hc
    · intro hc
      exact ⟨hk, cs, hcs, hc⟩
  · rw [hid]
    simp only [Finset.not_mem_empty, false_or]
    constructor
    · rintro ⟨-, cs2, hcs2, hc⟩
      rw [hcs] at hcs2
      injection hcs2 with h3
      subst h3
      exact hc
    · intro hc
      exact ⟨hk, cs, hcs, hc⟩

/-- Claim C1 witness: with two polygon jurisdictions and a history where
vessel 1 visits both and vessel 2 only one, vessel 1 is kept (its visited set
has two codes) and not deleted. -/
theorem analyze_keep_iff_multi_jurisdiction_witness :
    classify_vessels twoJurisdictions crossingHistory = Except.ok ({1}, {2}) ∧
    countries_visited twoJurisdictions (vesselPositions crossingHistory 1) =
      Except.ok {"B", "A"} ∧
    (1 ∈ ({1} : Finset ℕ) ↔ 2 ≤ ({"B", "A"} : Finset String).card) ∧
    (1 ∈ ({2} : Finset ℕ) ↔ ({"B", "A"} : Finset String).card < 2) := by
  have h := analyze_keep_iff_multi_jurisdiction twoJurisdictions crossingHistory
    {1} {2} 1 {"B", "A"} (by rfl) ⟨⟨1, 0, 0⟩, by decide, rfl⟩ (by rfl)
  exact ⟨by rfl, by rfl, h.1, h.2⟩

/-- Claim C3: for any input history, the two sets emitted by the analysis are
disjoint and their union is exactly the set of vessel identifiers appearing
in the bulk read. -/
theorem keep_delete_partition
    (b : List Boundary) (ps : List Position) (keep del : Finset ℕ)
    (h : classify_vessels b ps = Except.ok (keep, del)) :
    Disjoint keep del ∧ ∀ m : ℕ, (m ∈ keep ∨ m ∈ del) ↔ ∃ p ∈ ps, p.mmsi = m := by
  constructor
  · rw [Finset.disjoint_left]
    intro m hmk hmd
    obtain ⟨hik, hid⟩ := classifyLoop_mem b ps (groupKeys ps) (∅, ∅) keep del h m
    rw [hik] at hmk
    rw [hid] at hmd
    simp only [Finset.not_mem_empty, false_or] at hmk hmd
    exact keepCond_not_delCond hmk.2 hmd.2
  · intro m
    obtain ⟨hik, hid⟩ := classifyLoop_mem b ps (groupKeys ps) (∅, ∅) keep del h m
    constructor
    · rintro (hmk | hmd)
      · rw [hik] at hmk
        simp only [Finset.not_mem_empty, false_or] at hmk
        exact (mem_groupKeys ps m).mp hmk.1
      · rw [hid] at hmd
        simp only [Finset.not_mem_empty, false_or] at hmd
        exact (mem_groupKeys ps m).mp hmd.1
    · intro hm
      have hk : m ∈ groupKeys ps := (mem_groupKeys ps m).mpr hm
      obtain ⟨cs, hcs⟩ :=
        classifyLoop_ok_of_mem b ps (groupKeys ps) (∅, ∅) (keep, del) h m hk
      by_cases hc : 2 ≤ cs.card
      · left
        rw [hik]
        exact Or.inr ⟨hk, cs, hcs, hc⟩
      · right
        rw [hid]
        exact Or.inr ⟨hk, cs, hcs, by omega⟩

/-- Claim C3 witness: on the concrete two-vessel history the emitted sets
`{1}` and `{2}` are disjoint, and vessel 2 lands in their union because it
appears in the read. -/
theorem keep_delete_partition_witness :
    classify_vessels twoJurisdictions crossingHistory = Except.ok ({1}, {2}) ∧
    Disjoint ({1} : Finset ℕ) ({2} : Finset ℕ) ∧
    ((2 ∈ ({1} : Finset ℕ) ∨ 2 ∈ ({2} : Finset ℕ)) ↔
      ∃ p ∈ crossingHistory, p.mmsi = 2) := by
  have h := keep_delete_partition twoJurisdictions crossingHistory {1} {2} (by rfl)
  exact ⟨by rfl, h.1, h.2 2⟩

/-- A single step of `get_vessel_country`: when the geometry engine does not
raise on the head boundary, the head is consulted first and the tail is
consulted only when the head does not match. -/
theorem get_vessel_country_cons (b : Boundary) (rest : List Boundary) (lon lat : ℚ)
    (hb : boundaryTest b lon lat ≠ none) :
    get_vessel_country lon lat (b :: rest) =
      if boundaryTest b lon lat = some true then Except.ok (some b.country)
      else get_vessel_country lon lat rest := by
  obtain ⟨c, t, cf, df⟩ := b
  cases t with
  | polygon =>
    simp only [boundaryTest] at hb ⊢
    cases hcb : cf (lon, lat) with
    | none => exact absurd hcb hb
    | some v =>
      cases v with
      | false => simp [get_vessel_country, hcb]
      | true => simp [get_vessel_country, hcb]
  | multiPolygon =>
    simp only [boundaryTest] at hb ⊢
    cases hcb : cf (lon, lat) with
    | none => exact absurd hcb hb
    | some v =>
      cases v with
      | false => simp [get_vessel_country, hcb]
      | true => simp [get_vessel_country, hcb]
  | lineString =>
    simp only [boundaryTest] at hb ⊢
    cases hd : df (lon, lat) with
    | none => simp [hd] at hb
    | some d =>
      by_cases hlt : d < PROXIMITY_THRESHOLD
      · simp [get_vessel_country, hd, hlt]
      · simp [get_vessel_country, hd, hlt]
  | multiLineString =>
    simp only [boundaryTest] at hb ⊢
    cases hd : df (lon, lat) with
    | none => simp [hd] at hb
    | some d =>
      by_cases hlt : d < PROXIMITY_THRESHOLD
      · simp [get_vessel_country, hd, hlt]
      · simp [get_vessel_country, hd, hlt]
  | other =>
    simp only [boundaryTest] at hb ⊢
    simp [get_vessel_country]

/-- Claim C4: `get_vessel_country` evaluates the boundaries in the exact
order of the loaded list (file order) and returns the country of the first
boundary whose test matches — `List.find?` on the list —, provided the
engine raises on none of them. -/
theorem classify_first_match_in_file_order (bs : List Boundary) (lon lat : ℚ)
    (h : ∀ b ∈ bs, boundaryTest b lon lat ≠ none) :
    get_vessel_country lon lat bs =
      Except.ok ((bs.find? fun b => boundaryTest b lon lat == some true).map
        Boundary.country) := by
  induction bs with
  | nil => rfl
  | cons b rest ih =>
    have hb := h b (List.mem_cons_self b rest)
    have ih2 := ih fun b2 hb2 => h b2 (List.mem_cons_of_mem b hb2)
    rw [get_vessel_country_cons b rest lon lat hb]
    by_cases hm : boundaryTest b lon lat = some true
    · rw [if_pos hm, List.find?_cons_of_pos]
      · rfl
      · simp [hm]
    · rw [if_neg hm, List.find?_cons_of_neg, ih2]
      simp [hm]

/-- Claim C4 witness: a point inside two overlapping polygons with codes
`"A"` then `"B"` in file order classifies as `"A"` — first match wins. -/
theorem classify_first_match_in_file_order_witness :
    (∀ b ∈ [overlapPolyA, overlapPolyB], boundaryTest b 0 0 ≠ none) ∧
    get_vessel_country 0 0 [overlapPolyA, overlapPolyB] = Except.ok (some "A") := by
  have hno : ∀ b ∈ [overlapPolyA, overlapPolyB], boundaryTest b 0 0 ≠ none := by
    intro b hb
    fin_cases hb <;> simp [boundaryTest, overlapPolyA, overlapPolyB]
  have h := classify_first_match_in_file_order [overlapPolyA, overlapPolyB] 0 0 hno
  refine ⟨hno, ?he⟩
  rw [h]
  rfl

/-- Claim C5 (amended): in `get_vessel_country` — the retention-pass
classification path — a LINE boundary at the head matches exactly when the
engine-reported distance is strictly below `PROXIMITY_THRESHOLD = 2/10`;
otherwise evaluation falls through to the remaining boundaries.  (The other
classification path, `find_territorial_country` in territory.py, applies no
proximity rule at all — see the counterexample.) -/
theorem line_match_iff_distance_lt_threshold (b : Boundary) (rest : List Boundary)
    (lon lat d : ℚ)
    (ht : b.gType = GeomType.lineString ∨ b.gType = GeomType.multiLineString)
    (hd : b.distanceB (lon, lat) = some d) :
    get_vessel_country lon lat (b :: rest) =
      if d < PROXIMITY_THRESHOLD then Except.ok (some b.country)
      else get_vessel_country lon lat rest := by
  obtain ⟨c, t, cf, df⟩ := b
  simp only at hd
  rcases ht with ht | ht <;> (cases ht; simp [get_vessel_country, hd])

/-- Claim C5 witness: a line boundary at engine distance `1/10 < 2/10`
matches and yields its country. -/
theorem line_match_iff_distance_lt_threshold_witness :
    (lineBoundaryNear.gType = GeomType.lineString ∨
      lineBoundaryNear.gType = GeomType.multiLineString) ∧
    lineBoundaryNear.distanceB (0, 0) = some (1 / 10) ∧
    get_vessel_country 0 0 [lineBoundaryNear] = Except.ok (some "SE") := by
  have h := line_match_iff_distance_lt_threshold lineBoundaryNear [] 0 0 (1 / 10)
    (Or.inl rfl) rfl
  refine ⟨Or.inl rfl, rfl, ?he⟩
  rw [h]
  norm_num [PROXIMITY_THRESHOLD, lineBoundaryNear]

/-- Claim C5 counterexample: the same geometric situation — a LINE boundary
with the query point at engine distance `1/10`, strictly below the `2/10`
threshold (shapely reports `contains` and `intersects` false for a point off
the line) — matches on the cleanup path but does NOT match on the
territory.py path, refuting "this holds for every classification path that
attributes a point to a jurisdiction". -/
theorem line_threshold_not_all_paths_cex :
    get_vessel_country 0 0 [lineBoundaryNear] = Except.ok (some "SE") ∧
    find_territorial_country 0 0 [lineTerrNear] = none := by
  constructor
  · show (if (1 / 10 : ℚ) < PROXIMITY_THRESHOLD then Except.ok (some "SE")
      else get_vessel_country 0 0 []) = Except.ok (some "SE")
    norm_num [PROXIMITY_THRESHOLD]
  · rfl

/-- Claim C2: the deletion step runs only after an explicit affirmative
confirmation — the issued batch list is non-empty only when the lowercased
reply equals `"yes"` — and a run that reaches the prompt and declines issues
no delete request and exits cleanly (`some []`, no crash). -/
theorem deletion_gated_by_confirmation (keep del : Finset ℕ) (resp : String) :
    (∀ bs, main_run keep del resp = some bs → bs ≠ [] → strLower resp = "yes") ∧
    (del ≠ ∅ → keep ≠ ∅ → strLower resp ≠ "yes" → main_run keep del resp = some []) := by
  unfold main_run
  by_cases hd : del = ∅
  · rw [if_pos hd]
    constructor
    · intro bs hbs hne
      injection hbs with h2
      exact absurd h2.symm hne
    · intro hne
      exact absurd hd hne
  · rw [if_neg hd]
    unfold spacePct
    by_cases hk : keep.card = 0
    · rw [if_pos hk]
      constructor
      · intro bs hbs
        simp at hbs
      · intro _ hkne _
        exact absurd (Finset.card_eq_zero.mp hk) hkne
    · rw [if_neg hk]
      simp only
      by_cases hy : strLower resp = "yes"
      · rw [if_pos hy]
        constructor
        · intro _ _ _
          exact hy
        · intro _ _ hny
          exact absurd hy hny
      · rw [if_neg hy]
        constructor
        · intro bs hbs hne
          injection hbs with h2
          exact absurd h2.symm hne
        · intro _ _ _
          rfl

/-- Claim C2 witness: with a non-empty deletion set and the reply `"no"`, the
run issues no delete batch and returns cleanly. -/
theorem deletion_gated_by_confirmation_witness :
    ({2} : Finset ℕ) ≠ ∅ ∧ ({1} : Finset ℕ) ≠ ∅ ∧ strLower "no" ≠ "yes" ∧
    main_run {1} {2} "no" = some [] := by
  have h := deletion_gated_by_confirmation {1} {2} "no"
  exact ⟨by decide, by decide, by decide, h.2 (by decide) (by decide) (by decide)⟩

/-- Claim C6 (amended): when the paginated bulk read raises partway through,
`analyze_all_history` catches the exception and returns the empty partition
`(∅, ∅)` — so no vessel is ever marked from a partial fetch — rather than
propagating the failure to the caller. -/
theorem read_failure_yields_empty_partition
    (fetch : ℕ → Except Unit (List Position)) (b : List Boundary) (fuel : ℕ)
    (h : fetchLoopE fetch 1000 fuel 0 [] = some (Except.error ())) :
    analyze_all_history fetch b fuel = some (Except.ok (∅, ∅)) := by
  unfold analyze_all_history
  rw [h]

/-- Claim C6 witness: with a fetch that raises on the first page, the
analysis returns the empty partition. -/
theorem read_failure_yields_empty_partition_witness :
    fetchLoopE (fun _ => Except.error ()) 1000 1 0 [] = some (Except.error ()) ∧
    analyze_all_history (fun _ => Except.error ()) [] 1 = some (Except.ok (∅, ∅)) := by
  exact ⟨rfl, read_failure_yields_empty_partition (fun _ => Except.error ()) [] 1 rfl⟩

/-- Claim C6 counterexample: a bulk read that fails on its first page does
NOT propagate to the caller of `analyze_all_history` — the analysis result is
the ordinary value `some (Except.ok (∅, ∅))`, not the re-raised exception —
refuting "the failure propagates to the caller and aborts the retention
analysis with the original exception context". -/
theorem read_failure_not_propagated_cex :
    analyze_all_history (fun _ => Except.error ()) [] 1 = some (Except.ok (∅, ∅)) ∧
    analyze_all_history (fun _ => Except.error ()) [] 1 ≠ some (Except.error ()) := by
  constructor
  · rfl
  · show some (Except.ok ((∅ : Finset ℕ), (∅ : Finset ℕ))) ≠ some (Except.error ())
    simp

/-- Claim C7 (amended): in `find_territorial_country` — the territory.py
classification path — a boundary on which the containment test raises and the
`intersects` fallback does not match is skipped, and evaluation continues
with the subsequent boundaries; the query never aborts.  (The cleanup path
`get_vessel_country` catches nothing — see the counterexample.) -/
theorem territory_skips_failing_boundary (f : TerrFeature) (rest : List TerrFeature)
    (lon lat : ℚ) (hc : f.containsP (lon, lat) = none)
    (hi : f.intersectsP (lon, lat) ≠ some true) :
    find_territorial_country lon lat (f :: rest) =
      find_territorial_country lon lat rest := by
  obtain ⟨i, cp, ip⟩ := f
  simp only at hc hi
  cases hip : ip (lon, lat) with
  | none => simp [find_territorial_country, hc, hip]
  | some v =>
    cases v with
    | false => simp [find_territorial_country, hc, hip]
    | true => exact absurd hip hi

/-- Claim C7 witness: a feature whose geometry raises on both tests is
skipped and the remaining features are still evaluated. -/
theorem territory_skips_failing_boundary_witness :
    (TerrFeature.containsP ⟨some "FI", fun _ => none, fun _ => none⟩ (0, 0) = none) ∧
    (TerrFeature.intersectsP ⟨some "FI", fun _ => none, fun _ => none⟩ (0, 0) ≠ some true) ∧
    find_territorial_country 0 0
      [⟨some "FI", fun _ => none, fun _ => none⟩, unresolvedTerr] =
      find_territorial_country 0 0 [unresolvedTerr] := by
  refine ⟨rfl, by simp, ?he⟩
  exact territory_skips_failing_boundary ⟨some "FI", fun _ => none, fun _ => none⟩
    [unresolvedTerr] 0 0 rfl (by simp)

/-- Claim C7 counterexample: in `get_vessel_country` a geometry-engine
exception on the first boundary aborts the whole query (`Except.error`),
even though the second boundary alone would match — refuting "a single
malformed boundary never aborts the whole classify query" for this
classification path. -/
theorem engine_exception_aborts_cleanup_query_cex :
    get_vessel_country 0 0 [badPolyBoundary, okPolyBoundary] = Except.error () ∧
    get_vessel_country 0 0 [okPolyBoundary] = Except.ok (some "EE") := by
  exact ⟨rfl, rfl⟩

/-- When all three consulted properties are Python-falsy, the loader's
country label falls through to `"Unknown"`. -/
theorem featureCountry_unknown (f : Feature) (h1 : pyFalsy f.territory1)
    (h2 : pyFalsy f.countryProp) (h3 : pyFalsy f.nameProp) :
    featureCountry f = "Unknown" := by
  rcases h1 with h1 | h1 <;> rcases h2 with h2 | h2 <;> rcases h3 with h3 | h3 <;>
    simp [featureCountry, pyOr, h1, h2, h3]

/-- Claim C8 (amended): in the cleanup loader, a boundary whose jurisdiction
resolution failed is labelled with the non-null string `"Unknown"` and stays
matchable: a point matching it first classifies as `"Unknown"`, a result
distinguishable from the no-match result `none`.  (In territory.py the two
are indistinguishable — see the counterexample.) -/
theorem cleanup_unknown_label_distinguishable (f : Feature) (lon lat : ℚ)
    (h1 : pyFalsy f.territory1) (h2 : pyFalsy f.countryProp) (h3 : pyFalsy f.nameProp)
    (hg : f.geomType = GeomType.polygon) (hc : f.containsF (lon, lat) = some true) :
    get_vessel_country lon lat (load_territorial_waters [f]) =
      Except.ok (some "Unknown") ∧
    (Except.ok (some "Unknown") : Except Unit (Option String)) ≠ Except.ok none := by
  have hl : load_territorial_waters [f] =
      [⟨"Unknown", GeomType.polygon, f.containsF, f.distanceF⟩] := by
    simp [load_territorial_waters, hg, isHandledType,
      featureCountry_unknown f h1 h2 h3]
  rw [hl]
  constructor
  · simp [get_vessel_country, hc]
  · simp

/-- Claim C8 witness: a polygon feature with all name properties falsy loads
with label `"Unknown"` and a matching point classifies as `"Unknown"`. -/
theorem cleanup_unknown_label_distinguishable_witness :
    pyFalsy unresolvedFeature.territory1 ∧ pyFalsy unresolvedFeature.countryProp ∧
    pyFalsy unresolvedFeature.nameProp ∧
    get_vessel_country 0 0 (load_territorial_waters [unresolvedFeature]) =
      Except.ok (some "Unknown") := by
  refine ⟨Or.inl rfl, Or.inr rfl, Or.inl rfl, ?he⟩
  exact (cleanup_unknown_label_distinguishable unresolvedFeature 0 0
    (Or.inl rfl) (Or.inr rfl) (Or.inl rfl) rfl rfl).1

/-- Claim C8 counterexample: in territory.py, a loaded boundary whose code
resolution failed (`iso2 = None`) and which matches the query point first
yields the same result `none` as an empty boundary set — "matched but
jurisdiction unresolved" is NOT distinguishable from "no match" on this
path. -/
theorem unresolved_code_indistinguishable_cex :
    find_territorial_country 0 0 [unresolvedTerr] = none ∧
    find_territorial_country 0 0 [] = none := by
  exact ⟨rfl, rfl⟩

/-- The fetch loop over a store that serves every page from `rows` equals the
pure loop on the remaining suffix of the store. -/
theorem fetchLoopE_pureFetch (rows : List Position) (pageSize : ℕ) :
    ∀ (fuel offset : ℕ) (acc : List Position),
      fetchLoopE (pureFetch rows pageSize) pageSize fuel offset acc =
        (fetchPure pageSize fuel (rows.drop offset) acc).map Except.ok := by
  intro fuel
  induction fuel with
  | zero => intro offset acc; rfl
  | succ n ih =>
    intro offset acc
    rw [fetchLoopE, fetchPure]
    simp only [pureFetch]
    by_cases h1 : ((rows.drop offset).take pageSize).isEmpty
    · rw [if_pos h1, if_pos h1]
      rfl
    · rw [if_neg h1, if_neg h1]
      by_cases h2 : ((rows.drop offset).take pageSize).length < pageSize
      · rw [if_pos h2, if_pos h2]
        rfl
      · rw [if_neg h2, if_neg h2, ih]
        rw [List.drop_drop]

/-- The pure loop terminates within `length + 1` iterations and collects the
whole remaining store, for any positive page size. -/
theorem fetchPure_complete (pageSize : ℕ) (hp : 0 < pageSize) :
    ∀ (fuel : ℕ) (rem acc : List Position), rem.length < fuel →
      fetchPure pageSize fuel rem acc = some (acc ++ rem) := by
  intro fuel
  induction fuel with
  | zero => intro rem acc h; omega
  | succ n ih =>
    intro rem acc h
    obtain ⟨k, rfl⟩ : ∃ k, pageSize = k + 1 := ⟨pageSize - 1, by omega⟩
    cases rem with
    | nil => rw [fetchPure]; simp
    | cons p rs =>
      rw [fetchPure]
      split
      · rename_i hcontra
        simp [List.take_succ_cons] at hcontra
      · split
        · rename_i hempty hshort
          have htake : (p :: rs).take (k + 1) = p :: rs := by
            apply List.take_of_length_le
            have hshort2 : min (k + 1) (p :: rs).length < k + 1 := by
              simpa [List.length_take] using hshort
            omega
          rw [htake]
        · rename_i hempty hlong
          have hk : k ≤ rs.length := by
            simp only [List.length_take, List.length_cons, not_lt] at hlong
            omega
          simp only [List.length_cons] at h
          rw [ih ((p :: rs).drop (k + 1)) (acc ++ (p :: rs).take (k + 1))
            (by simp only [List.length_drop, List.length_cons]; omega)]
          rw [List.append_assoc, List.take_append_drop]

/-- Claim C9: for every finite store and positive page size, the paginated
read loop terminates (with fuel `length + 1`, i.e. it never needs more
iterations than rows) and collects exactly the store's rows — it stops on the
first page shorter than the page size, including an empty page after a final
page of exactly `pageSize` rows. -/
theorem pagination_terminates_and_collects_all (rows : List Position)
    (pageSize : ℕ) (hp : 0 < pageSize) :
    fetchLoopE (pureFetch rows pageSize) pageSize (rows.length + 1) 0 [] =
      some (Except.ok rows) := by
  rw [fetchLoopE_pureFetch]
  rw [List.drop_zero]
  rw [fetchPure_complete pageSize hp (rows.length + 1) rows [] (by omega)]
  simp

/-- Claim C9 witness: a two-row store read with page size 2 — the final
non-empty page holds exactly `pageSize` rows — still terminates, on the
following empty page, with all rows collected. -/
theorem pagination_terminates_and_collects_all_witness :
    0 < 2 ∧
    fetchLoopE (pureFetch twoRows 2) 2 3 0 [] = some (Except.ok twoRows) := by
  exact ⟨by decide, pagination_terminates_and_collects_all twoRows 2 (by decide)⟩

/-- Claim C10: when the analysis yields an empty `vessels_to_keep` and a
non-empty `vessels_to_delete`, the retention pass does NOT report its summary
without error: the estimated-space expression
`len(vessels_to_delete)/len(vessels_to_keep)*100` divides by zero and `main`
crashes (before the confirmation prompt, whatever the reply would have
been). -/
theorem space_percentage_crashes_on_empty_keep (resp : String) :
    main_run ∅ {1} resp = none := by
  unfold main_run
  rw [if_neg (by decide)]
  rfl
